import Mathlib

/-!
Verification development for the idempotent-operation coordinator middleware
(`idempotency` in jwt-rotation-middleware.js, the express-idempotency-redis
part of the file).

Shallow embedding notes:
* The Redis store is modelled at the single derived key: `Option StoreVal`,
  where `none` means no record (Empty / expired), `StoreVal.processing` is the
  claim marker `{"processing":true}` and `StoreVal.processed` is the completed
  record `{processed, status, headers:{content-type}, body}`.
  TTL expiry is enforced by the store itself (the middleware never checks
  timestamps); an expired record is modelled by the caller supplying `none`.
* The body is stored by the code as base64 of the captured bytes and decoded
  back on replay; base64 encode/decode is an external bijection (Node Buffer),
  so the stored body is modelled as the captured byte string itself.  What is
  captured is NOT the sent body but the sent body doubled — see `capture`.
* The handler invoked by `next()` is modelled as `Except Unit HandlerResponse`
  producing exactly one response through `res.send`.  The `propagates` flag
  says whether an error raised by the handler propagates back through the
  `next()` call into the middleware's own try block.  Under Express 4 dispatch
  the router catches synchronous handler throws itself (Layer.handle_request),
  so for the pipeline this source actually uses `propagates = false`; a
  pipeline that re-raised through `next()` is `propagates = true`.
* `commitOk` says whether the fire-and-forget `redis.set` persisting the
  completed record succeeds (its rejection is caught and only logged).
-/

/-- A claim record stored under the derived key: either the processing marker
`{"processing":true}` or the completed snapshot
`{processed:true, status, headers:{content-type}, body}`. -/
inductive StoreVal where
  | processing
  | processed (status : Nat) (contentType : String) (body : String)
deriving DecidableEq, Repr

/-- Store operations the middleware issues against Redis (`redis.get`,
`redis.set(..., 'NX', 'EX', ...)`, `redis.set(..., 'EX', ...)`, `redis.del`). -/
inductive StoreOp where
  | get
  | setNX
  | setEx
  | del
deriving DecidableEq, Repr

/-- The response produced by the wrapped handler through `res.send`:
status code, the headers it set on `res`, and the body bytes. -/
structure HandlerResponse where
  status : Nat
  headers : List (String × String)
  body : String
deriving DecidableEq, Repr

/-- An inbound request as the middleware sees it: `req.method`,
`req.originalUrl`, and the value of the configured idempotency header
(`req.get(header)`), `none` when absent. -/
structure Req where
  method : String
  url : String
  token : Option String
deriving DecidableEq, Repr

/-- ASCII lower-casing of one character, for case-insensitive header names. -/
def lowerChar (c : Char) : Char :=
  if 'A' ≤ c ∧ c ≤ 'Z' then Char.ofNat (c.toNat + 32) else c

/-- Case-insensitive test that a header name is `Content-Type`. -/
def isContentTypeName (k : String) : Bool :=
  k.data.map lowerChar == "content-type".data

/-- `res.get('Content-Type')` lookup (header names are case-insensitive),
with the code's `|| ''` fallback. -/
def getContentType (hs : List (String × String)) : String :=
  match hs.find? (fun kv => isContentTypeName kv.fst) with
  | some kv => kv.snd
  | none => ""

/-- The record built by the `res.send` override and persisted on commit:
`{processed:true, status: res.statusCode || 200,
headers:{'content-type': res.get('Content-Type') || ''},
body: base64(Buffer.concat(chunks))}`.
Only the content-type header is captured (the code's comment: "add other
headers if needed").  The body bytes land in `chunks` twice: the overridden
`res.send` pushes the body (line 175-177) before calling `originalSend`, and
Express's own `send` finishes with `this.end(chunk, encoding)`, which
resolves to the patched `res.end` (line 168) and pushes the same chunk
again — so the persisted `Buffer.concat(chunks)` is the sent bytes doubled.
(An empty body is falsy in both hooks and never pushed; `"" ++ ""` is `""`,
so the doubling is uniform.) -/
def capture (r : HandlerResponse) : StoreVal :=
  .processed (if r.status = 0 then 200 else r.status) (getContentType r.headers)
    (r.body ++ r.body)

/-- What the middleware run did for the caller. -/
inductive Outcome where
  /-- `next()` ran and the handler's own response went out live. -/
  | passedThrough (r : HandlerResponse)
  /-- The stored completed record was replayed (`res.status`, `res.set`
  of the stored headers, `res.send` of the decoded body). -/
  | replayed (status : Nat) (contentType : String) (body : String)
  /-- `res.status(409).json({ error: 'Request is being processed' })`. -/
  | conflict
  /-- The handler raised but the pipeline contained the error; the
  middleware's catch never ran. -/
  | handlerFailedContained
  /-- An error reached the middleware's catch: cleanup then `next(err)`. -/
  | erroredCleanup
deriving DecidableEq, Repr

/-- Result of one middleware run: the outcome, the final value at the key,
the store operations issued, and whether `next()` (the handler) was called. -/
structure MwResult where
  outcome : Outcome
  store : Option StoreVal
  ops : List StoreOp
  handlerCalled : Bool
deriving DecidableEq, Repr

/-- The key derivation at line 123:
`` `idem:${req.method}:${keyHeader}:${req.originalUrl}` ``. -/
def redisKey (method token url : String) : String :=
  "idem:" ++ method ++ ":" ++ token ++ ":" ++ url

/-- The catch block's cleanup (lines 202-221): re-read the header; if a
token is present (non-empty), `get` the key and `del` it when it still holds
the processing marker. -/
def catchCleanup (tok : Option String) (store : Option StoreVal) :
    Option StoreVal × List StoreOp :=
  match tok with
  | none => (store, [])
  | some t =>
    if t = "" then (store, [])
    else
      match store with
      | none => (none, [.get])
      | some .processing => (none, [.get, .del])
      | some v => (some v, [.get])

/-- A run that never consults the store before `next()`: method not in the
configured list, or no (or empty) token header.  On a handler error that
propagates back through `next()`, the catch cleanup still runs. -/
def bypass (tok : Option String) (handler : Except Unit HandlerResponse)
    (propagates : Bool) (store : Option StoreVal) : MwResult :=
  match handler with
  | .ok r => ⟨.passedThrough r, store, [], true⟩
  | .error _ =>
    if propagates then
      let (st, ops) := catchCleanup tok store
      ⟨.erroredCleanup, st, ops, true⟩
    else
      ⟨.handlerFailedContained, store, [], true⟩

/-- One run of the `idempotency({redis, ttl, processingTtl, header, methods})`
middleware for a single request, at its derived key.  Mirrors lines 116-221:
method gate, token gate, cached-record check (replay / conflict), the
`SET NX EX` claim, the `res.send` capture-and-commit hook, and the catch
cleanup.  In a single-request run nothing interleaves between the `get` that
saw no record and the `SET NX`, so that claim attempt succeeds; the lost-race
branch is exercised by the concurrent model below. -/
def idem (methods : List String) (req : Req)
    (handler : Except Unit HandlerResponse) (propagates : Bool)
    (commitOk : Bool) (store : Option StoreVal) : MwResult :=
  if ¬ methods.contains req.method then
    bypass req.token handler propagates store
  else
    match req.token with
    | none => bypass none handler propagates store
    | some tok =>
      if tok = "" then
        -- an empty header value is falsy: `if (!keyHeader) return next()`
        bypass (some tok) handler propagates store
      else
        match store with
        | some (.processed s c b) =>
          -- cached.processed: replay the stored snapshot, never call next()
          ⟨.replayed s c b, some (.processed s c b), [.get], false⟩
        | some .processing =>
          -- cached.processing: 409 conflict, never call next()
          ⟨.conflict, some .processing, [.get], false⟩
        | none =>
          -- no record: SET NX EX claims the key, then next()
          match handler with
          | .ok r =>
            if commitOk then
              ⟨.passedThrough r, some (capture r), [.get, .setNX, .setEx], true⟩
            else
              -- commit rejection is caught and logged; marker stays
              ⟨.passedThrough r, some .processing, [.get, .setNX, .setEx], true⟩
          | .error _ =>
            if propagates then
              -- catch: get sees the processing marker we just set, del it
              ⟨.erroredCleanup, none, [.get, .setNX, .get, .del], true⟩
            else
              ⟨.handlerFailedContained, some .processing, [.get, .setNX], true⟩

/-- The 409 conflict body `{"error":"Request is being processed"}`. -/
def conflictBody : String := "\x7b\"error\":\"Request is being processed\"\x7d"

/-- The response bytes a caller receives for an outcome (none when the
pipeline's error handling, outside this middleware, produces the response). -/
structure Delivered where
  status : Nat
  headers : List (String × String)
  body : String
deriving DecidableEq, Repr

/-- Status, headers and body sent to the caller for each outcome.  A replay
emits exactly the stored header map, whose single entry is keyed
`content-type`. -/
def delivered (o : Outcome) : Option Delivered :=
  match o with
  | .passedThrough r => some ⟨r.status, r.headers, r.body⟩
  | .replayed s c b => some ⟨s, [("content-type", c)], b⟩
  | .conflict => some ⟨409, [], conflictBody⟩
  | .handlerFailedContained => none
  | .erroredCleanup => none

/-- Substring test on character lists, used to check for machine-readable
reason codes in response bodies. -/
def hasSub (needle : List Char) : List Char → Bool
  | [] => needle.isEmpty
  | c :: t => needle.isPrefixOf (c :: t) || hasSub needle t

/-!
Concurrent model for the claim race.  N requests for the same derived key run
the middleware's main path concurrently; the shared state is the value at the
key.  Each request is a small program whose suspension points are exactly the
store round-trips of the source: the `redis.get` (line 126), the
`redis.set(..., 'NX', ...)` claim (line 149), then — for the winner — the
handler+`res.send` execution and the fire-and-forget commit
(`redis.set(..., 'EX', ttl)`, line 193).  All requests carry a valid method
and the same non-empty token; TTLs do not expire during the race (the claim's
"simultaneous" window) and handlers succeed.  A schedule is an arbitrary
interleaving of these atomic store steps.
-/

/-- Control point of one concurrent request at the shared key. -/
inductive Proc where
  /-- about to issue the `redis.get`. -/
  | start
  /-- the `get` returned nil; about to attempt `SET NX`. -/
  | gotNil
  /-- won the `SET NX` claim; about to run the handler and send. -/
  | running
  /-- handler ran and its response was sent; commit not yet applied. -/
  | executedP
  /-- finished: executed the handler and committed the completed record. -/
  | doneLive
  /-- finished with the 409 conflict response. -/
  | doneConflict
  /-- finished by replaying the completed record it read. -/
  | doneReplay (v : StoreVal)
deriving DecidableEq, Repr

/-- Global state of the race: the value at the key, each request's control
point, and how many handler executions have happened. -/
structure Cfg (n : Nat) where
  store : Option StoreVal
  procs : Fin n → Proc
  execs : Nat

/-- One atomic step of request `i` (its next store round-trip, or the handler
execution).  `rs i` is the response request `i`'s handler would produce. -/
def stepIdem {n : Nat} (rs : Fin n → HandlerResponse) (c : Cfg n) (i : Fin n) :
    Cfg n :=
  match c.procs i with
  | .start =>
    match c.store with
    | none => { c with procs := Function.update c.procs i .gotNil }
    | some .processing => { c with procs := Function.update c.procs i .doneConflict }
    | some (.processed s ct b) =>
        { c with procs := Function.update c.procs i (.doneReplay (.processed s ct b)) }
  | .gotNil =>
    match c.store with
    | none =>
        { store := some .processing, procs := Function.update c.procs i .running,
          execs := c.execs }
    | some _ => { c with procs := Function.update c.procs i .doneConflict }
  | .running =>
      { c with procs := Function.update c.procs i .executedP, execs := c.execs + 1 }
  | .executedP =>
      { c with store := some (capture (rs i)), procs := Function.update c.procs i .doneLive }
  | .doneLive => c
  | .doneConflict => c
  | .doneReplay _ => c

/-- Initial race state: no record at the key, every request at its `get`. -/
def initCfg (n : Nat) : Cfg n := ⟨none, fun _ => .start, 0⟩

/-- Run a schedule (interleaving) of atomic steps from the initial state. -/
def runSched {n : Nat} (rs : Fin n → HandlerResponse) (sched : List (Fin n)) :
    Cfg n :=
  sched.foldl (stepIdem rs) (initCfg n)

/-- A request that has received its response. -/
def isDone : Proc → Bool
  | .doneLive => true
  | .doneConflict => true
  | .doneReplay _ => true
  | _ => false

/-- Race invariant: the store value determines the shape of the race.  While
no record exists nobody has claimed or executed; while the processing marker
is up there is a unique winner (claimed, possibly already executed) and
everyone else is before their claim or has conflicted; once the completed
record is committed it is the winner's captured response, the winner is done,
and everyone else conflicted, replayed that record, or is still early. -/
def InvIdem {n : Nat} (rs : Fin n → HandlerResponse) (c : Cfg n) : Prop :=
  match c.store with
  | none =>
      c.execs = 0 ∧ ∀ j, c.procs j = .start ∨ c.procs j = .gotNil
  | some .processing =>
      ∃ w, ((c.procs w = .running ∧ c.execs = 0) ∨
            (c.procs w = .executedP ∧ c.execs = 1)) ∧
        ∀ j, j ≠ w → c.procs j = .start ∨ c.procs j = .gotNil ∨
          c.procs j = .doneConflict
  | some (.processed s ct b) =>
      c.execs = 1 ∧ ∃ w, c.procs w = .doneLive ∧
        StoreVal.processed s ct b = capture (rs w) ∧
        ∀ j, j ≠ w → c.procs j = .start ∨ c.procs j = .gotNil ∨
          c.procs j = .doneConflict ∨
          c.procs j = .doneReplay (StoreVal.processed s ct b)

theorem invIdem_init (n : Nat) (rs : Fin n → HandlerResponse) :
    InvIdem rs (initCfg n) := by
  refine ⟨rfl, fun j => Or.inl rfl⟩

theorem invIdem_step {n : Nat} (rs : Fin n → HandlerResponse) (c : Cfg n)
    (i : Fin n) (h : InvIdem rs c) : InvIdem rs (stepIdem rs c i) := by
  rcases hp : c.procs i with _ | _ | _ | _ | _ | _ | v
  case start =>
    rcases hs : c.store with _ | v'
    · rw [InvIdem, hs] at h
      simp only [stepIdem, hp, hs]
      exact ⟨h.1, fun j => by
        rcases eq_or_ne j i with rfl | hj
        · simp [Function.update_same]
        · simpa [Function.update_noteq hj] using h.2 j⟩
    · rcases v' with _ | ⟨s, ct, b⟩
      · rw [InvIdem, hs] at h
        obtain ⟨w, hw, hrest⟩ := h
        have hiw : i ≠ w := by
          rintro rfl
          rcases hw with ⟨hw, -⟩ | ⟨hw, -⟩ <;> rw [hp] at hw <;> exact Proc.noConfusion hw
        simp only [stepIdem, hp, hs, InvIdem]
        refine ⟨w, ?_, fun j hj => ?_⟩
        · rcases hw with ⟨hw, he⟩ | ⟨hw, he⟩
          · exact Or.inl ⟨by rw [Function.update_noteq (Ne.symm hiw), hw], he⟩
          · exact Or.inr ⟨by rw [Function.update_noteq (Ne.symm hiw), hw], he⟩
        · rcases eq_or_ne j i with rfl | hji
          · simp [Function.update_same]
          · rw [Function.update_noteq hji]
            exact hrest j hj
      · rw [InvIdem, hs] at h
        obtain ⟨he, w, hw, hcap, hrest⟩ := h
        have hiw : i ≠ w := by
          rintro rfl; rw [hp] at hw; exact Proc.noConfusion hw
        simp only [stepIdem, hp, hs, InvIdem]
        refine ⟨he, w, by rw [Function.update_noteq (Ne.symm hiw)]; exact hw, hcap,
          fun j hj => ?_⟩
        rcases eq_or_ne j i with rfl | hji
        · simp [Function.update_same]
        · rw [Function.update_noteq hji]
          exact hrest j hj
  case gotNil =>
    rcases hs : c.store with _ | v'
    · rw [InvIdem, hs] at h
      simp only [stepIdem, hp, hs, InvIdem]
      refine ⟨i, Or.inl ⟨Function.update_same .., h.1⟩, fun j hj => ?_⟩
      rw [Function.update_noteq hj]
      rcases h.2 j with h' | h'
      · exact Or.inl h'
      · exact Or.inr (Or.inl h')
    · rcases v' with _ | ⟨s, ct, b⟩
      · rw [InvIdem, hs] at h
        obtain ⟨w, hw, hrest⟩ := h
        have hiw : i ≠ w := by
          rintro rfl
          rcases hw with ⟨hw, -⟩ | ⟨hw, -⟩ <;> rw [hp] at hw <;> exact Proc.noConfusion hw
        simp only [stepIdem, hp, hs, InvIdem]
        refine ⟨w, ?_, fun j hj => ?_⟩
        · rcases hw with ⟨hw, he⟩ | ⟨hw, he⟩
          · exact Or.inl ⟨by rw [Function.update_noteq (Ne.symm hiw), hw], he⟩
          · exact Or.inr ⟨by rw [Function.update_noteq (Ne.symm hiw), hw], he⟩
        · rcases eq_or_ne j i with rfl | hji
          · simp [Function.update_same]
          · rw [Function.update_noteq hji]
            exact hrest j hj
      · rw [InvIdem, hs] at h
        obtain ⟨he, w, hw, hcap, hrest⟩ := h
        have hiw : i ≠ w := by
          rintro rfl; rw [hp] at hw; exact Proc.noConfusion hw
        simp only [stepIdem, hp, hs, InvIdem]
        refine ⟨he, w, by rw [Function.update_noteq (Ne.symm hiw)]; exact hw, hcap,
          fun j hj => ?_⟩
        rcases eq_or_ne j i with rfl | hji
        · simp [Function.update_same]
        · rw [Function.update_noteq hji]
          exact hrest j hj
  case running =>
    rcases hs : c.store with _ | v'
    · rw [InvIdem, hs] at h
      have := h.2 i
      rw [hp] at this
      rcases this with h' | h' <;> exact absurd h' (by simp)
    · rcases v' with _ | ⟨s, ct, b⟩
      · rw [InvIdem, hs] at h
        obtain ⟨w, hw, hrest⟩ := h
        have hiw : i = w := by
          by_contra hne
          rcases hrest i hne with h' | h' | h' <;> rw [hp] at h' <;>
            exact Proc.noConfusion h'
        subst hiw
        have hexecs : c.execs = 0 := by
          rcases hw with ⟨-, he⟩ | ⟨hw, -⟩
          · exact he
          · rw [hp] at hw; exact absurd hw (by simp)
        simp only [stepIdem, hp, hs, InvIdem]
        refine ⟨i, Or.inr ⟨Function.update_same .., by rw [hexecs]⟩, fun j hj => ?_⟩
        rw [Function.update_noteq hj]
        exact hrest j hj
      · rw [InvIdem, hs] at h
        obtain ⟨-, w, hw, -, hrest⟩ := h
        have hiw : i ≠ w := by
          rintro rfl; rw [hp] at hw; exact Proc.noConfusion hw
        rcases hrest i hiw with h' | h' | h' | h' <;> rw [hp] at h' <;>
          exact Proc.noConfusion h'
  case executedP =>
    rcases hs : c.store with _ | v'
    · rw [InvIdem, hs] at h
      have := h.2 i
      rw [hp] at this
      rcases this with h' | h' <;> exact absurd h' (by simp)
    · rcases v' with _ | ⟨s, ct, b⟩
      · rw [InvIdem, hs] at h
        obtain ⟨w, hw, hrest⟩ := h
        have hiw : i = w := by
          by_contra hne
          rcases hrest i hne with h' | h' | h' <;> rw [hp] at h' <;>
            exact Proc.noConfusion h'
        subst hiw
        have hexecs : c.execs = 1 := by
          rcases hw with ⟨hw, -⟩ | ⟨-, he⟩
          · rw [hp] at hw; exact absurd hw (by simp)
          · exact he
        simp only [stepIdem, hp, InvIdem, capture]
        refine ⟨hexecs, i, Function.update_same .., rfl, fun j hj => ?_⟩
        rw [Function.update_noteq hj]
        rcases hrest j hj with h' | h' | h'
        · exact Or.inl h'
        · exact Or.inr (Or.inl h')
        · exact Or.inr (Or.inr (Or.inl h'))
      · rw [InvIdem, hs] at h
        obtain ⟨-, w, hw, -, hrest⟩ := h
        have hiw : i ≠ w := by
          rintro rfl; rw [hp] at hw; exact Proc.noConfusion hw
        rcases hrest i hiw with h' | h' | h' | h' <;> rw [hp] at h' <;>
          exact Proc.noConfusion h'
  case doneLive =>
    simpa only [stepIdem, hp] using h
  case doneConflict =>
    simpa only [stepIdem, hp] using h
  case doneReplay =>
    simpa only [stepIdem, hp] using h

theorem invIdem_foldl {n : Nat} (rs : Fin n → HandlerResponse) :
    ∀ (sched : List (Fin n)) (c : Cfg n), InvIdem rs c →
      InvIdem rs (sched.foldl (stepIdem rs) c)
  | [], _, h => h
  | i :: rest, c, h =>
      invIdem_foldl rs rest (stepIdem rs c i) (invIdem_step rs c i h)

theorem invIdem_run {n : Nat} (rs : Fin n → HandlerResponse)
    (sched : List (Fin n)) : InvIdem rs (runSched rs sched) :=
  invIdem_foldl rs sched (initCfg n) (invIdem_init n rs)

theorem getContentType_singleton (x : String) :
    getContentType [("content-type", x)] = x := by
  simp [getContentType, List.find?, show isContentTypeName "content-type" = true from rfl]

/-- C4: for every request whose key read returns a Completed record, the
middleware returns the stored snapshot (status, content-type, body) to the
caller and the pipeline's next step is not called (`handlerCalled = false`);
the store is left untouched apart from the read. -/
theorem C4_completed_replay (methods : List String) (m u t : String)
    (s : Nat) (ct b : String) (handler : Except Unit HandlerResponse)
    (propagates commitOk : Bool)
    (hm : methods.contains m = true) (ht : t ≠ "") :
    idem methods ⟨m, u, some t⟩ handler propagates commitOk
        (some (.processed s ct b))
      = ⟨.replayed s ct b, some (.processed s ct b), [.get], false⟩ := by
  have hm' : m ∈ methods := by simpa using hm
  simp [idem, hm', ht]

theorem C4_completed_replay_witness :
    idem ["POST", "PUT", "PATCH"] ⟨"POST", "/pay", some "abc"⟩
        (.ok ⟨200, [], ""⟩) false true (some (.processed 201 "text/plain" "created"))
      = ⟨.replayed 201 "text/plain" "created",
          some (.processed 201 "text/plain" "created"), [.get], false⟩ :=
  C4_completed_replay _ _ _ _ _ _ _ _ _ _ (by decide) (by decide)

/-- C5: a request with no idempotency token header issues no store operation,
always calls the handler directly, and leaves the store unchanged — in every
configuration, for succeeding and failing handlers alike (the catch cleanup
also skips the store when no token is present). -/
theorem C5_no_token_direct (methods : List String) (m u : String)
    (handler : Except Unit HandlerResponse) (propagates commitOk : Bool)
    (store : Option StoreVal) :
    (idem methods ⟨m, u, none⟩ handler propagates commitOk store).ops = [] ∧
    (idem methods ⟨m, u, none⟩ handler propagates commitOk store).handlerCalled = true ∧
    (idem methods ⟨m, u, none⟩ handler propagates commitOk store).store = store := by
  cases handler <;> cases propagates <;>
    by_cases hm : methods.contains m <;>
      simp [idem, bypass, catchCleanup, hm]

/-- C9: a request whose method is not in the configured methods list calls
the handler directly with no store operation and an unchanged store, even
when a token header is present.  The embedding takes `propagates = false`:
under Express dispatch the router contains handler throws, so the
middleware's catch (whose cleanup would read the store) never runs for such
requests. -/
theorem C9_method_bypass (methods : List String) (m u : String)
    (tok : Option String) (handler : Except Unit HandlerResponse)
    (commitOk : Bool) (store : Option StoreVal)
    (hm : methods.contains m = false) :
    (idem methods ⟨m, u, tok⟩ handler false commitOk store).ops = [] ∧
    (idem methods ⟨m, u, tok⟩ handler false commitOk store).handlerCalled = true ∧
    (idem methods ⟨m, u, tok⟩ handler false commitOk store).store = store := by
  have hm' : m ∉ methods := by simpa using hm
  cases handler <;> simp [idem, bypass, hm']

theorem C9_method_bypass_witness :
    (idem ["POST", "PUT", "PATCH"] ⟨"GET", "/pay", some "abc"⟩
        (.ok ⟨200, [], "ok"⟩) false true none).ops = [] ∧
    (idem ["POST", "PUT", "PATCH"] ⟨"GET", "/pay", some "abc"⟩
        (.ok ⟨200, [], "ok"⟩) false true none).handlerCalled = true ∧
    (idem ["POST", "PUT", "PATCH"] ⟨"GET", "/pay", some "abc"⟩
        (.ok ⟨200, [], "ok"⟩) false true none).store = none :=
  C9_method_bypass _ _ _ _ _ _ _ (by decide)

/-- C10: when the fire-and-forget store write of the Completed record fails
after the claim holder's response was sent, the caller's response is exactly
the one a successful commit would have produced (the error is only logged);
the processing marker is left at the key, so a later request for the key gets
the conflict response rather than a Completed replay. -/
theorem C10_commit_failure_swallowed (methods : List String) (m u t : String)
    (r : HandlerResponse) (p1 p2 c2 : Bool) (h2 : Except Unit HandlerResponse)
    (hm : methods.contains m = true) (ht : t ≠ "") :
    (idem methods ⟨m, u, some t⟩ (.ok r) p1 false none).outcome
      = (idem methods ⟨m, u, some t⟩ (.ok r) p1 true none).outcome ∧
    (idem methods ⟨m, u, some t⟩ (.ok r) p1 false none).outcome
      = .passedThrough r ∧
    (idem methods ⟨m, u, some t⟩ (.ok r) p1 false none).store
      = some .processing ∧
    (idem methods ⟨m, u, some t⟩ h2 p2 c2 (some .processing)).outcome
      = .conflict ∧
    (idem methods ⟨m, u, some t⟩ h2 p2 c2 (some .processing)).handlerCalled
      = false := by
  have hm' : m ∈ methods := by simpa using hm
  simp [idem, hm', ht]

theorem C10_commit_failure_swallowed_witness :
    (idem ["POST", "PUT", "PATCH"] ⟨"POST", "/pay", some "abc"⟩
        (.ok ⟨201, [], "created"⟩) false false none).outcome
      = (idem ["POST", "PUT", "PATCH"] ⟨"POST", "/pay", some "abc"⟩
          (.ok ⟨201, [], "created"⟩) false true none).outcome ∧
    (idem ["POST", "PUT", "PATCH"] ⟨"POST", "/pay", some "abc"⟩
        (.ok ⟨201, [], "created"⟩) false false none).outcome
      = .passedThrough ⟨201, [], "created"⟩ ∧
    (idem ["POST", "PUT", "PATCH"] ⟨"POST", "/pay", some "abc"⟩
        (.ok ⟨201, [], "created"⟩) false false none).store
      = some .processing ∧
    (idem ["POST", "PUT", "PATCH"] ⟨"POST", "/pay", some "abc"⟩
        (.ok ⟨200, [], "x"⟩) false true (some .processing)).outcome
      = .conflict ∧
    (idem ["POST", "PUT", "PATCH"] ⟨"POST", "/pay", some "abc"⟩
        (.ok ⟨200, [], "x"⟩) false true (some .processing)).handlerCalled
      = false :=
  C10_commit_failure_swallowed _ _ _ _ _ _ _ _ _ (by decide) (by decide)

/-- C3 counterexample: the conflict response the code produces does not carry
the machine-readable reason code `operation_in_progress`; its body is the
JSON `{"error":"Request is being processed"}`.  Evaluated at a concrete
request that finds an unexpired processing marker. -/
theorem C3_conflict_reason_counterexample :
    (idem ["POST", "PUT", "PATCH"] ⟨"POST", "/pay", some "abc"⟩
        (.ok ⟨201, [], "x"⟩) false true (some .processing)).outcome = .conflict ∧
    delivered .conflict = some ⟨409, [], conflictBody⟩ ∧
    hasSub "operation_in_progress".toList conflictBody.toList = false := by
  decide

/-- C3 (amended): a request that finds an unexpired processing marker, or
loses the conditional-create claim race, receives the HTTP 409 conflict whose
body is the JSON error `Request is being processed` (not the reason code
`operation_in_progress`), without the handler being invoked; the middleware
never blocks (every run returns immediately).  The lost-race branch is the
`gotNil` step of the concurrent model finding any record at the key. -/
theorem C3_conflict_response (methods : List String) (m u t : String)
    (handler : Except Unit HandlerResponse) (propagates commitOk : Bool)
    (hm : methods.contains m = true) (ht : t ≠ "") :
    idem methods ⟨m, u, some t⟩ handler propagates commitOk (some .processing)
      = ⟨.conflict, some .processing, [.get], false⟩ ∧
    delivered .conflict = some ⟨409, [], conflictBody⟩ ∧
    (∀ (n : Nat) (rs : Fin n → HandlerResponse) (c : Cfg n) (i : Fin n)
       (v : StoreVal), c.procs i = .gotNil → c.store = some v →
        (stepIdem rs c i).procs i = .doneConflict) := by
  have hm' : m ∈ methods := by simpa using hm
  refine ⟨by simp [idem, hm', ht], rfl, ?_⟩
  intro n rs c i v hp hs
  cases v <;> simp [stepIdem, hp, hs]

theorem C3_conflict_response_witness :
    idem ["POST", "PUT", "PATCH"] ⟨"POST", "/pay", some "abc"⟩
        (.ok ⟨201, [], "x"⟩) false true (some .processing)
      = ⟨.conflict, some .processing, [.get], false⟩ :=
  (C3_conflict_response _ _ _ _ _ _ _ (by decide) (by decide)).1

/-- C6 counterexample: a request whose token header is the empty string is
not rejected and no `InvalidKey` failure exists in the code; the empty value
is falsy, so the middleware treats it as no token and executes the handler
directly (the store is indeed untouched, but the request succeeds). -/
theorem C6_invalid_key_counterexample :
    idem ["POST", "PUT", "PATCH"] ⟨"POST", "/pay", some ""⟩
        (.ok ⟨201, [], "ok"⟩) false true none
      = ⟨.passedThrough ⟨201, [], "ok"⟩, none, [], true⟩ := by
  decide

/-- C6 (amended): an empty token is treated exactly like an absent one — the
handler executes directly, with no store operation and an unchanged store,
and nothing is rejected; and there is no maximum-length validation — every
non-empty token, of any length, reaches the store (the first issued
operation is the `get` at its derived key). -/
theorem C6_token_validation_amended (methods : List String) (m u : String)
    (handler : Except Unit HandlerResponse) (propagates commitOk : Bool)
    (store : Option StoreVal) (hm : methods.contains m = true) :
    ((idem methods ⟨m, u, some ""⟩ handler propagates commitOk store).ops = [] ∧
     (idem methods ⟨m, u, some ""⟩ handler propagates commitOk store).handlerCalled
       = true ∧
     (idem methods ⟨m, u, some ""⟩ handler propagates commitOk store).store
       = store) ∧
    ∀ t : String, t ≠ "" →
      (idem methods ⟨m, u, some t⟩ handler propagates commitOk store).ops.head?
        = some .get := by
  have hm' : m ∈ methods := by simpa using hm
  constructor
  · cases handler <;> cases propagates <;> simp [idem, bypass, catchCleanup, hm']
  · intro t ht
    rcases store with _ | v
    · cases handler <;> cases propagates <;> cases commitOk <;>
        simp [idem, hm', ht]
    · cases v <;> simp [idem, hm', ht]

theorem C6_token_validation_amended_witness :
    (idem ["POST", "PUT", "PATCH"] ⟨"POST", "/pay", some ""⟩
        (.ok ⟨201, [], "ok"⟩) false true none).ops = [] ∧
    (idem ["POST", "PUT", "PATCH"] ⟨"POST", "/pay", some ""⟩
        (.ok ⟨201, [], "ok"⟩) false true none).handlerCalled = true ∧
    (idem ["POST", "PUT", "PATCH"] ⟨"POST", "/pay", some ""⟩
        (.ok ⟨201, [], "ok"⟩) false true none).store = none :=
  (C6_token_validation_amended _ _ _ _ _ _ _ (by decide)).1

/-- C7 counterexample: under the Express pipeline this source uses, a handler
failure after a won claim is contained by the router's own dispatch, the
middleware's catch never runs, the processing marker is NOT released, and a
retry with the same token within the claim TTL receives the 409 conflict —
not the Unclaimed state the claim asserts. -/
theorem C7_handler_failure_counterexample :
    idem ["POST", "PUT", "PATCH"] ⟨"POST", "/pay", some "abc"⟩
        (.error ()) false true none
      = ⟨.handlerFailedContained, some .processing, [.get, .setNX], true⟩ ∧
    (idem ["POST", "PUT", "PATCH"] ⟨"POST", "/pay", some "abc"⟩
        (.ok ⟨200, [], "retry"⟩) false true (some .processing)).outcome
      = .conflict := by
  decide

/-- C7 (amended): the release happens only when the error propagates back
through `next()` into the middleware's own try block.  A contained handler
failure leaves the processing marker at the key (so a retry within the claim
TTL conflicts); a propagating error triggers the catch cleanup, which reads
the key and deletes the marker, so a subsequent retry observes the key as
Unclaimed and executes the handler. -/
theorem C7_release_on_propagating_error (methods : List String) (m u t : String)
    (r : HandlerResponse) (c1 c2 c3 p2 p3 : Bool)
    (h2 : Except Unit HandlerResponse)
    (hm : methods.contains m = true) (ht : t ≠ "") :
    (idem methods ⟨m, u, some t⟩ (.error ()) false c1 none).store
      = some .processing ∧
    (idem methods ⟨m, u, some t⟩ h2 p2 c2 (some .processing)).outcome
      = .conflict ∧
    idem methods ⟨m, u, some t⟩ (.error ()) true c1 none
      = ⟨.erroredCleanup, none, [.get, .setNX, .get, .del], true⟩ ∧
    (idem methods ⟨m, u, some t⟩ (.ok r) p3 c3 none).handlerCalled = true ∧
    (idem methods ⟨m, u, some t⟩ (.ok r) p3 c3 none).outcome
      = .passedThrough r := by
  have hm' : m ∈ methods := by simpa using hm
  refine ⟨by simp [idem, hm', ht], by simp [idem, hm', ht],
    by simp [idem, hm', ht], ?_, ?_⟩
  · cases c3 <;> simp [idem, hm', ht]
  · cases c3 <;> simp [idem, hm', ht]

theorem C7_release_on_propagating_error_witness :
    (idem ["POST", "PUT", "PATCH"] ⟨"POST", "/pay", some "abc"⟩
        (.error ()) false true none).store = some .processing ∧
    (idem ["POST", "PUT", "PATCH"] ⟨"POST", "/pay", some "abc"⟩
        (.ok ⟨200, [], "x"⟩) false true (some .processing)).outcome = .conflict ∧
    idem ["POST", "PUT", "PATCH"] ⟨"POST", "/pay", some "abc"⟩
        (.error ()) true true none
      = ⟨.erroredCleanup, none, [.get, .setNX, .get, .del], true⟩ ∧
    (idem ["POST", "PUT", "PATCH"] ⟨"POST", "/pay", some "abc"⟩
        (.ok ⟨200, [], "retried"⟩) false true none).handlerCalled = true ∧
    (idem ["POST", "PUT", "PATCH"] ⟨"POST", "/pay", some "abc"⟩
        (.ok ⟨200, [], "retried"⟩) false true none).outcome
      = .passedThrough ⟨200, [], "retried"⟩ :=
  C7_release_on_propagating_error _ _ _ _ _ _ _ _ _ _ _ (by decide) (by decide)

/-- C1 counterexample: replay is byte-identical in neither headers nor body.
The original caller receives body `created` with the handler's full header
set; the committed record stores the sent bytes doubled (the send hook pushes
the body and Express's send then invokes the patched `res.end`, pushing the
same chunk again) and only the content-type header, so the replay delivers
body `createdcreated` and drops `x-request-id`. -/
theorem C1_replay_headers_counterexample :
    delivered (idem ["POST", "PUT", "PATCH"] ⟨"POST", "/pay", some "abc"⟩
        (.ok ⟨201, [("Content-Type", "text/plain"), ("x-request-id", "r1")],
          "created"⟩) false true none).outcome
      = some ⟨201, [("Content-Type", "text/plain"), ("x-request-id", "r1")],
          "created"⟩ ∧
    delivered (idem ["POST", "PUT", "PATCH"] ⟨"POST", "/pay", some "abc"⟩
        (.ok ⟨200, [], "other"⟩) false true
        ((idem ["POST", "PUT", "PATCH"] ⟨"POST", "/pay", some "abc"⟩
          (.ok ⟨201, [("Content-Type", "text/plain"), ("x-request-id", "r1")],
            "created"⟩) false true none).store)).outcome
      = some ⟨201, [("content-type", "text/plain")], "createdcreated"⟩ ∧
    (⟨201, [("Content-Type", "text/plain"), ("x-request-id", "r1")], "created"⟩
        : Delivered)
      ≠ ⟨201, [("content-type", "text/plain")], "createdcreated"⟩ := by
  decide

/-- C1 (amended): for a completed, unexpired record, a second request with
the same method, URL and token replays a response with the identical status
and with the content-type value preserved, without invoking the handler
again — but the replayed body is the originally sent bytes doubled (the send
hook captures the body twice, see `capture`), and headers other than
content-type are not reproduced; every further request within the record's
TTL replays exactly the same bytes as the second (replays are byte-identical
to one another, not to the original response). -/
theorem C1_replay_amended (methods : List String) (m u t : String)
    (r : HandlerResponse) (h2 h3 : Except Unit HandlerResponse)
    (p1 p2 p3 c2 c3 : Bool)
    (hm : methods.contains m = true) (ht : t ≠ "") (hstat : r.status ≠ 0) :
    ∃ d1 d2 : Delivered,
      delivered (idem methods ⟨m, u, some t⟩ (.ok r) p1 true none).outcome
        = some d1 ∧
      delivered (idem methods ⟨m, u, some t⟩ h2 p2 c2
          ((idem methods ⟨m, u, some t⟩ (.ok r) p1 true none).store)).outcome
        = some d2 ∧
      (idem methods ⟨m, u, some t⟩ h2 p2 c2
          ((idem methods ⟨m, u, some t⟩ (.ok r) p1 true none).store)).handlerCalled
        = false ∧
      d1.status = d2.status ∧ d2.body = d1.body ++ d1.body ∧
      getContentType d2.headers = getContentType d1.headers ∧
      delivered (idem methods ⟨m, u, some t⟩ h3 p3 c3
          ((idem methods ⟨m, u, some t⟩ h2 p2 c2
            ((idem methods ⟨m, u, some t⟩ (.ok r) p1 true none).store)).store)).outcome
        = some d2 ∧
      (idem methods ⟨m, u, some t⟩ h3 p3 c3
          ((idem methods ⟨m, u, some t⟩ h2 p2 c2
            ((idem methods ⟨m, u, some t⟩ (.ok r) p1 true none).store)).store)).handlerCalled
        = false := by
  have hm' : m ∈ methods := by simpa using hm
  have h1 : idem methods ⟨m, u, some t⟩ (.ok r) p1 true none
      = ⟨.passedThrough r, some (capture r), [.get, .setNX, .setEx], true⟩ := by
    simp [idem, hm', ht]
  have hrun2 : idem methods ⟨m, u, some t⟩ h2 p2 c2
      ((idem methods ⟨m, u, some t⟩ (.ok r) p1 true none).store)
      = ⟨.replayed r.status (getContentType r.headers) (r.body ++ r.body),
          some (capture r), [.get], false⟩ := by
    rw [h1]
    simp [idem, hm', ht, capture, hstat]
  have hrun3 : idem methods ⟨m, u, some t⟩ h3 p3 c3
      ((idem methods ⟨m, u, some t⟩ h2 p2 c2
        ((idem methods ⟨m, u, some t⟩ (.ok r) p1 true none).store)).store)
      = ⟨.replayed r.status (getContentType r.headers) (r.body ++ r.body),
          some (capture r), [.get], false⟩ := by
    rw [hrun2]
    simp [idem, hm', ht, capture, hstat]
  refine ⟨⟨r.status, r.headers, r.body⟩,
    ⟨r.status, [("content-type", getContentType r.headers)], r.body ++ r.body⟩,
    ?_, ?_, ?_, rfl, rfl, getContentType_singleton _, ?_, ?_⟩
  · rw [h1]; rfl
  · rw [hrun2]; rfl
  · rw [hrun2]
  · rw [hrun3]; rfl
  · rw [hrun3]

theorem C1_replay_amended_witness :
    ∃ d1 d2 : Delivered,
      delivered (idem ["POST", "PUT", "PATCH"] ⟨"POST", "/pay", some "abc"⟩
          (.ok ⟨201, [("Content-Type", "text/plain")], "created"⟩)
          false true none).outcome = some d1 ∧
      delivered (idem ["POST", "PUT", "PATCH"] ⟨"POST", "/pay", some "abc"⟩
          (.ok ⟨200, [], "other"⟩) false true
          ((idem ["POST", "PUT", "PATCH"] ⟨"POST", "/pay", some "abc"⟩
            (.ok ⟨201, [("Content-Type", "text/plain")], "created"⟩)
            false true none).store)).outcome = some d2 ∧
      (idem ["POST", "PUT", "PATCH"] ⟨"POST", "/pay", some "abc"⟩
          (.ok ⟨200, [], "other"⟩) false true
          ((idem ["POST", "PUT", "PATCH"] ⟨"POST", "/pay", some "abc"⟩
            (.ok ⟨201, [("Content-Type", "text/plain")], "created"⟩)
            false true none).store)).handlerCalled = false ∧
      d1.status = d2.status ∧ d2.body = d1.body ++ d1.body ∧
      getContentType d2.headers = getContentType d1.headers ∧
      delivered (idem ["POST", "PUT", "PATCH"] ⟨"POST", "/pay", some "abc"⟩
          (.ok ⟨204, [], "third"⟩) true false
          ((idem ["POST", "PUT", "PATCH"] ⟨"POST", "/pay", some "abc"⟩
            (.ok ⟨200, [], "other"⟩) false true
            ((idem ["POST", "PUT", "PATCH"] ⟨"POST", "/pay", some "abc"⟩
              (.ok ⟨201, [("Content-Type", "text/plain")], "created"⟩)
              false true none).store)).store)).outcome = some d2 ∧
      (idem ["POST", "PUT", "PATCH"] ⟨"POST", "/pay", some "abc"⟩
          (.ok ⟨204, [], "third"⟩) true false
          ((idem ["POST", "PUT", "PATCH"] ⟨"POST", "/pay", some "abc"⟩
            (.ok ⟨200, [], "other"⟩) false true
            ((idem ["POST", "PUT", "PATCH"] ⟨"POST", "/pay", some "abc"⟩
              (.ok ⟨201, [("Content-Type", "text/plain")], "created"⟩)
              false true none).store)).store)).handlerCalled = false :=
  C1_replay_amended _ _ _ _ _ _ _ _ _ _ _ _ (by decide) (by decide) (by decide)

/-- Left-cancellation of a colon-separated concatenation when the left parts
are colon-free: the first colon unambiguously ends the left part. -/
theorem colon_sep_inj : ∀ (a b r₁ r₂ : List Char), ':' ∉ a → ':' ∉ b →
    a ++ ':' :: r₁ = b ++ ':' :: r₂ → a = b ∧ r₁ = r₂ := by
  intro a
  induction a with
  | nil =>
    intro b r₁ r₂ ha hb h
    cases b with
    | nil =>
      simp only [List.nil_append, List.cons.injEq, true_and] at h
      exact ⟨rfl, h⟩
    | cons c bt =>
      simp only [List.nil_append, List.cons_append, List.cons.injEq] at h
      refine absurd ?_ hb
      rw [h.1]
      exact List.mem_cons_self c bt
  | cons c ct ih =>
    intro b r₁ r₂ ha hb h
    cases b with
    | nil =>
      simp only [List.nil_append, List.cons_append, List.cons.injEq] at h
      refine absurd ?_ ha
      rw [← h.1]
      exact List.mem_cons_self c ct
    | cons d bt =>
      simp only [List.cons_append, List.cons.injEq] at h
      have ha' : ':' ∉ ct := fun hx => ha (List.mem_cons_of_mem _ hx)
      have hb' : ':' ∉ bt := fun hx => hb (List.mem_cons_of_mem _ hx)
      obtain ⟨e1, e2⟩ := ih bt r₁ r₂ ha' hb' h.2
      exact ⟨by rw [h.1, e1], e2⟩

/-- C8 counterexample: the derived key is not injective over distinct
(method, token, url) triples.  A token containing `:` collides with a
shorter token whose url absorbs the rest: `("POST", "a:b", "/c")` and
`("POST", "a", "b:/c")` derive the same key `idem:POST:a:b:/c`. -/
theorem C8_key_collision_counterexample :
    redisKey "POST" "a:b" "/c" = redisKey "POST" "a" "b:/c" ∧
    ("POST", "a:b", "/c") ≠ ("POST", "a", "b:/c") := by
  decide

/-- C8 (amended): key derivation is a pure function of (method, token, url)
— identical triples always yield the identical key (no salts, the definition
is deterministic) — and it is injective on triples whose method and token
contain no `:`; with a colon-bearing token distinct triples can collide (see
the counterexample). -/
theorem C8_key_injective_amended (m₁ t₁ u₁ m₂ t₂ u₂ : String)
    (hm₁ : ':' ∉ m₁.data) (ht₁ : ':' ∉ t₁.data)
    (hm₂ : ':' ∉ m₂.data) (ht₂ : ':' ∉ t₂.data)
    (h : redisKey m₁ t₁ u₁ = redisKey m₂ t₂ u₂) :
    m₁ = m₂ ∧ t₁ = t₂ ∧ u₁ = u₂ := by
  have hd := congrArg String.data h
  have hp : ("idem:" : String).data = ['i', 'd', 'e', 'm', ':'] := rfl
  have hs : (":" : String).data = [':'] := rfl
  simp only [redisKey, String.data_append, hp, hs, List.append_assoc,
    List.cons_append, List.nil_append, List.cons.injEq, true_and] at hd
  obtain ⟨e1, e2⟩ := colon_sep_inj _ _ _ _ hm₁ hm₂ hd
  obtain ⟨e3, e4⟩ := colon_sep_inj _ _ _ _ ht₁ ht₂ e2
  exact ⟨String.ext e1, String.ext e3, String.ext e4⟩

theorem C8_key_injective_amended_witness :
    ("POST" : String) = "POST" ∧ ("abc" : String) = "abc" ∧
    ("/pay" : String) = "/pay" :=
  C8_key_injective_amended _ _ _ _ _ _ (by decide) (by decide) (by decide)
    (by decide) (by decide)

/-- C2: in every interleaving of N concurrent requests for the same key
(same method, URL and token, initially unclaimed key, TTLs outlasting the
race) in which all requests have received a response, the handler has
executed exactly once; the unique winner finished live, and each of the
other N−1 requests received either the 409 conflict or the replay of the
winner's captured Completed snapshot — never a second handler execution. -/
theorem C2_single_winner {n : Nat} (rs : Fin n → HandlerResponse)
    (sched : List (Fin n)) (hn : 0 < n)
    (hdone : ∀ i, isDone ((runSched rs sched).procs i) = true) :
    (runSched rs sched).execs = 1 ∧
    ∃ w, (runSched rs sched).procs w = .doneLive ∧
      (∀ w', (runSched rs sched).procs w' = .doneLive → w' = w) ∧
      ∀ j, j ≠ w → (runSched rs sched).procs j = .doneConflict ∨
        (runSched rs sched).procs j = .doneReplay (capture (rs w)) := by
  have hinv := invIdem_run rs sched
  set c := runSched rs sched with hc
  rcases hs : c.store with _ | v
  · rw [InvIdem, hs] at hinv
    have h0 := hinv.2 ⟨0, hn⟩
    have hd := hdone ⟨0, hn⟩
    rcases h0 with h0 | h0 <;> rw [h0] at hd <;> simp [isDone] at hd
  · rcases v with _ | ⟨s, ct, b⟩
    · rw [InvIdem, hs] at hinv
      obtain ⟨w, hw, -⟩ := hinv
      have hd := hdone w
      rcases hw with ⟨hw, -⟩ | ⟨hw, -⟩ <;> rw [hw] at hd <;> simp [isDone] at hd
    · rw [InvIdem, hs] at hinv
      obtain ⟨he, w, hw, hcap, hrest⟩ := hinv
      refine ⟨he, w, hw, ?_, ?_⟩
      · intro w' hw'
        by_contra hne
        rcases hrest w' hne with h' | h' | h' | h' <;> rw [h'] at hw' <;>
          exact Proc.noConfusion hw'
      · intro j hj
        have hd := hdone j
        rcases hrest j hj with h' | h' | h' | h'
        · rw [h'] at hd; simp [isDone] at hd
        · rw [h'] at hd; simp [isDone] at hd
        · exact Or.inl h'
        · rw [hcap] at h'
          exact Or.inr h'

theorem C2_single_winner_witness :
    (runSched (fun _ : Fin 2 => ⟨201, [], "created"⟩)
        ([0, 0, 0, 0, 1] : List (Fin 2))).execs = 1 ∧
    ∃ w, (runSched (fun _ : Fin 2 => ⟨201, [], "created"⟩)
        ([0, 0, 0, 0, 1] : List (Fin 2))).procs w = .doneLive ∧
      (∀ w', (runSched (fun _ : Fin 2 => ⟨201, [], "created"⟩)
          ([0, 0, 0, 0, 1] : List (Fin 2))).procs w' = .doneLive → w' = w) ∧
      ∀ j, j ≠ w →
        (runSched (fun _ : Fin 2 => ⟨201, [], "created"⟩)
          ([0, 0, 0, 0, 1] : List (Fin 2))).procs j = .doneConflict ∨
        (runSched (fun _ : Fin 2 => ⟨201, [], "created"⟩)
          ([0, 0, 0, 0, 1] : List (Fin 2))).procs j
          = .doneReplay (capture ((fun _ : Fin 2 => ⟨201, [], "created"⟩) w)) :=
  C2_single_winner _ _ (by decide) (by decide)
